import Mathlib

/-!
Shallow embedding of the modbus_simulator protocol code:
CRC-16/MODBUS codec, Modbus RTU frame parsing/building, the Modbus and
FINS datastores, the Modbus RTU request processor and the FINS
memory-area handler.  Bytes and 16-bit words are modelled as `Nat`
(inputs constrained to byte range where the Go types force it) and
fallible operations return `Except`/pairs with an error component.
-/

/-- Modbus exception codes (rtu/errors.go). -/
def ExceptionIllegalFunction : Nat := 0x01

/-- rtu/errors.go: exception code 0x02. -/
def ExceptionIllegalDataAddress : Nat := 0x02

/-- rtu/errors.go: exception code 0x03. -/
def ExceptionIllegalDataValue : Nat := 0x03

/-- rtu/errors.go: exception code 0x04. -/
def ExceptionSlaveDeviceFailure : Nat := 0x04

/-- One round of the CRC-16/MODBUS inner loop (rtu/crc.go):
if the low bit is set, shift right and xor with 0xA001, else shift right. -/
def crcRound (crc : Nat) : Nat :=
  if crc &&& 0x0001 ≠ 0 then (crc >>> 1) ^^^ 0xA001 else crc >>> 1

/-- `n` iterations of `crcRound` (the `for i := 0; i < 8; i++` loop in CRC16). -/
def crcRounds : Nat → Nat → Nat
  | 0, crc => crc
  | n + 1, crc => crcRounds n (crcRound crc)

/-- CRC16 (rtu/crc.go): initial value 0xFFFF; for each byte, xor it in and
run 8 rounds of the 0xA001 LSB-first reduction. -/
def CRC16 (data : List Nat) : Nat :=
  data.foldl (fun crc b => crcRounds 8 (crc ^^^ b)) 0xFFFF

/-- AppendCRC (rtu/crc.go): append the CRC little-endian, low byte
(`byte(crc&0xFF)`) then high byte (`byte(crc>>8)`, a truncating byte cast). -/
def AppendCRC (data : List Nat) : List Nat :=
  data ++ [CRC16 data &&& 0xFF, (CRC16 data >>> 8) % 256]

/-- CheckCRC (rtu/crc.go): frames shorter than 3 bytes fail; otherwise
recompute the CRC over all but the last two bytes and compare with the
little-endian CRC stored in the last two bytes. -/
def CheckCRC (frame : List Nat) : Bool :=
  if frame.length < 3 then false
  else
    let dataLen := frame.length - 2
    let data := frame.take dataLen
    let received := frame.getD dataLen 0 ||| (frame.getD (dataLen + 1) 0 <<< 8)
    CRC16 data == received

/-- binary.BigEndian.Uint16: high byte shifted left 8, or-ed with low byte. -/
def be16 (hi lo : Nat) : Nat :=
  (hi <<< 8) ||| lo

/-- Modbus RTU request (rtu/frame.go `Request`). -/
structure Request where
  UnitID : Nat
  FunctionCode : Nat
  Address : Nat
  Quantity : Nat
  Data : List Nat
deriving DecidableEq, Repr

/-- Errors of rtu/frame.go `ParseRequest`. -/
inductive RtuParseError where
  | frameTooShort
  | invalidCRC
  | unsupportedFunctionCode (fc : Nat)
deriving DecidableEq, Repr

/-- The CRC-stripped data of an RTU frame (`data := frame[:len(frame)-2]`
in rtu/frame.go ParseRequest). -/
def rtuData (frame : List Nat) : List Nat :=
  frame.take (frame.length - 2)

/-- ParseRequest (rtu/frame.go): minimum length 6, CRC check, then a switch
on the function code (byte 1 of the CRC-stripped data) that reads the
fixed-layout payload. -/
def ParseRequest (frame : List Nat) : Except RtuParseError Request :=
  if frame.length < 6 then .error .frameTooShort
  else if CheckCRC frame = false then .error .invalidCRC
  else if (rtuData frame).getD 1 0 = 0x01 ∨ (rtuData frame).getD 1 0 = 0x02 ∨
      (rtuData frame).getD 1 0 = 0x03 ∨ (rtuData frame).getD 1 0 = 0x04 then
    if (rtuData frame).length < 6 then .error .frameTooShort
    else .ok ⟨(rtuData frame).getD 0 0, (rtuData frame).getD 1 0,
              be16 ((rtuData frame).getD 2 0) ((rtuData frame).getD 3 0),
              be16 ((rtuData frame).getD 4 0) ((rtuData frame).getD 5 0), []⟩
  else if (rtuData frame).getD 1 0 = 0x05 ∨ (rtuData frame).getD 1 0 = 0x06 then
    if (rtuData frame).length < 6 then .error .frameTooShort
    else .ok ⟨(rtuData frame).getD 0 0, (rtuData frame).getD 1 0,
              be16 ((rtuData frame).getD 2 0) ((rtuData frame).getD 3 0), 1,
              ((rtuData frame).drop 4).take 2⟩
  else if (rtuData frame).getD 1 0 = 0x0F then
    if (rtuData frame).length < 7 then .error .frameTooShort
    else if (rtuData frame).length < 7 + (rtuData frame).getD 6 0 then .error .frameTooShort
    else .ok ⟨(rtuData frame).getD 0 0, (rtuData frame).getD 1 0,
              be16 ((rtuData frame).getD 2 0) ((rtuData frame).getD 3 0),
              be16 ((rtuData frame).getD 4 0) ((rtuData frame).getD 5 0),
              ((rtuData frame).drop 7).take ((rtuData frame).getD 6 0)⟩
  else if (rtuData frame).getD 1 0 = 0x10 then
    if (rtuData frame).length < 7 then .error .frameTooShort
    else if (rtuData frame).length < 7 + (rtuData frame).getD 6 0 then .error .frameTooShort
    else .ok ⟨(rtuData frame).getD 0 0, (rtuData frame).getD 1 0,
              be16 ((rtuData frame).getD 2 0) ((rtuData frame).getD 3 0),
              be16 ((rtuData frame).getD 4 0) ((rtuData frame).getD 5 0),
              ((rtuData frame).drop 7).take ((rtuData frame).getD 6 0)⟩
  else .error (.unsupportedFunctionCode ((rtuData frame).getD 1 0))

/-- BuildWriteSingleResponse (rtu/frame.go): echo UnitID, FC, address and
value big-endian, CRC appended. -/
def BuildWriteSingleResponse (unitID funcCode address value : Nat) : List Nat :=
  AppendCRC [unitID, funcCode, address >>> 8, address % 256, value >>> 8, value % 256]

/-- BuildWriteMultipleResponse (rtu/frame.go): UnitID, FC, address and
quantity big-endian, CRC appended. -/
def BuildWriteMultipleResponse (unitID funcCode address quantity : Nat) : List Nat :=
  AppendCRC [unitID, funcCode, address >>> 8, address % 256, quantity >>> 8, quantity % 256]

/-- BuildExceptionResponse (rtu/frame.go): UnitID, FC with bit 7 set,
exception code, CRC appended. -/
def BuildExceptionResponse (unitID funcCode exceptionCode : Nat) : List Nat :=
  AppendCRC [unitID, funcCode ||| 0x80, exceptionCode]

/-- Datastore errors (domain/datastore): area lookup and range failures. -/
inductive DSError where
  | areaNotFound
  | addressOutOfRange
deriving DecidableEq, Repr

/-- Semantics of Go `copy(dst[i:], src)`: overwrite
`min (src.length) (dst.length - i)` elements of `dst` starting at `i`. -/
def copyInto {α : Type} (dst : List α) (i : Nat) (src : List α) : List α :=
  dst.take i ++ src.take (dst.length - i) ++ dst.drop (i + src.length)

/-- Semantics of the Restore copy step in both datastores:
`count := min (len given) (len existing); copy(existing, given[:count])`. -/
def restoreCopy {α : Type} (existing given : List α) : List α :=
  let count := min given.length existing.length
  given.take count ++ existing.drop count

/-- A value of a snapshot/restore map entry (`map[string]interface{}`):
a word array, a bool array, or any other dynamic type. -/
inductive RVal where
  | words (ws : List Nat)
  | bools (bs : List Bool)
  | other
deriving DecidableEq, Repr

/-- ModbusDataStore (modbus/server.go): coil and discrete-input bit arrays,
holding and input register word arrays. -/
structure ModbusDataStore where
  coils : List Bool
  discreteInputs : List Bool
  holdingRegs : List Nat
  inputRegs : List Nat
deriving DecidableEq, Repr

/-- Area identifier `coils` (modbus/server.go). -/
def AreaCoils : String := "coils"

/-- Area identifier `discreteInputs` (modbus/server.go). -/
def AreaDiscreteInputs : String := "discreteInputs"

/-- Area identifier `holdingRegisters` (modbus/server.go). -/
def AreaHoldingRegs : String := "holdingRegisters"

/-- Area identifier `inputRegisters` (modbus/server.go). -/
def AreaInputRegs : String := "inputRegisters"

/-- ModbusDataStore.WriteBit (modbus/server.go): switch on the area id,
bounds-check the single address, then set the cell. -/
def ModbusDataStore.WriteBit (s : ModbusDataStore) (area : String) (address : Nat)
    (value : Bool) : ModbusDataStore × Option DSError :=
  if area = AreaCoils then
    if address ≥ s.coils.length then (s, some .addressOutOfRange)
    else ({ s with coils := s.coils.set address value }, none)
  else if area = AreaDiscreteInputs then
    if address ≥ s.discreteInputs.length then (s, some .addressOutOfRange)
    else ({ s with discreteInputs := s.discreteInputs.set address value }, none)
  else (s, some .areaNotFound)

/-- ModbusDataStore.WriteBits (modbus/server.go): switch on the area id,
reject if `address + len(values) > len(area)`, else copy the values in. -/
def ModbusDataStore.WriteBits (s : ModbusDataStore) (area : String) (address : Nat)
    (values : List Bool) : ModbusDataStore × Option DSError :=
  if area = AreaCoils then
    if address + values.length > s.coils.length then (s, some .addressOutOfRange)
    else ({ s with coils := copyInto s.coils address values }, none)
  else if area = AreaDiscreteInputs then
    if address + values.length > s.discreteInputs.length then (s, some .addressOutOfRange)
    else ({ s with discreteInputs := copyInto s.discreteInputs address values }, none)
  else (s, some .areaNotFound)

/-- ModbusDataStore.ReadWords (modbus/server.go): switch on the area id,
reject if `address + count > len(area)`, else return the copied slice. -/
def ModbusDataStore.ReadWords (s : ModbusDataStore) (area : String) (address count : Nat) :
    Except DSError (List Nat) :=
  if area = AreaHoldingRegs then
    if address + count > s.holdingRegs.length then .error .addressOutOfRange
    else .ok ((s.holdingRegs.drop address).take count)
  else if area = AreaInputRegs then
    if address + count > s.inputRegs.length then .error .addressOutOfRange
    else .ok ((s.inputRegs.drop address).take count)
  else .error .areaNotFound

/-- ModbusDataStore.WriteWords (modbus/server.go): switch on the area id,
reject if `address + len(values) > len(area)`, else copy the values in. -/
def ModbusDataStore.WriteWords (s : ModbusDataStore) (area : String) (address : Nat)
    (values : List Nat) : ModbusDataStore × Option DSError :=
  if area = AreaHoldingRegs then
    if address + values.length > s.holdingRegs.length then (s, some .addressOutOfRange)
    else ({ s with holdingRegs := copyInto s.holdingRegs address values }, none)
  else if area = AreaInputRegs then
    if address + values.length > s.inputRegs.length then (s, some .addressOutOfRange)
    else ({ s with inputRegs := copyInto s.inputRegs address values }, none)
  else (s, some .areaNotFound)

/-- The `coils` block of ModbusDataStore.Restore (modbus/server.go): a
present `[]bool` entry under key `coils` is copied in up to the smaller
length, anything else is ignored. -/
def mRestoreCoils (s : ModbusDataStore) (data : List (String × RVal)) : ModbusDataStore :=
  match data.lookup AreaCoils with
  | some (.bools bs) => { s with coils := restoreCopy s.coils bs }
  | _ => s

/-- The `discreteInputs` block of ModbusDataStore.Restore. -/
def mRestoreDiscrete (s : ModbusDataStore) (data : List (String × RVal)) : ModbusDataStore :=
  match data.lookup AreaDiscreteInputs with
  | some (.bools bs) => { s with discreteInputs := restoreCopy s.discreteInputs bs }
  | _ => s

/-- The `holdingRegisters` block of ModbusDataStore.Restore: accepts only
`[]uint16` values. -/
def mRestoreHolding (s : ModbusDataStore) (data : List (String × RVal)) : ModbusDataStore :=
  match data.lookup AreaHoldingRegs with
  | some (.words ws) => { s with holdingRegs := restoreCopy s.holdingRegs ws }
  | _ => s

/-- The `inputRegisters` block of ModbusDataStore.Restore. -/
def mRestoreInput (s : ModbusDataStore) (data : List (String × RVal)) : ModbusDataStore :=
  match data.lookup AreaInputRegs with
  | some (.words ws) => { s with inputRegs := restoreCopy s.inputRegs ws }
  | _ => s

/-- ModbusDataStore.Restore (modbus/server.go): look up each of the four
fixed area keys in the input map in order; a present entry of the matching
array type is copied in up to the smaller length, anything else is
ignored; always returns nil error. -/
def ModbusDataStore.Restore (s : ModbusDataStore) (data : List (String × RVal)) :
    ModbusDataStore × Option DSError :=
  (mRestoreInput (mRestoreHolding (mRestoreDiscrete (mRestoreCoils s data) data) data) data,
   none)

/-- FINSDataStore (fins/datastore.go): a map from area id to word data,
modelled as an association list. -/
structure FINSDataStore where
  areas : List (String × List Nat)
deriving DecidableEq, Repr

/-- In-place mutation of the slice stored under key `a` in the Go map:
every entry with that key now holds `d`. -/
def updateArea (s : List (String × List Nat)) (a : String) (d : List Nat) :
    List (String × List Nat) :=
  s.map (fun p => if p.1 = a then (a, d) else p)

/-- FINSDataStore.ReadWords (fins/datastore.go): map lookup, reject if
`address + count > len(data)`, else return the copied slice. -/
def FINSDataStore.ReadWords (s : FINSDataStore) (area : String) (address count : Nat) :
    Except DSError (List Nat) :=
  match s.areas.lookup area with
  | none => .error .areaNotFound
  | some data =>
    if address + count > data.length then .error .addressOutOfRange
    else .ok ((data.drop address).take count)

/-- FINSDataStore.WriteWords (fins/datastore.go): map lookup, reject if
`address + len(values) > len(data)`, else copy the values in. -/
def FINSDataStore.WriteWords (s : FINSDataStore) (area : String) (address : Nat)
    (values : List Nat) : FINSDataStore × Option DSError :=
  match s.areas.lookup area with
  | none => (s, some .areaNotFound)
  | some data =>
    if address + values.length > data.length then (s, some .addressOutOfRange)
    else (⟨updateArea s.areas area (copyInto data address values)⟩, none)

/-- The `for i, value := range values` loop of FINSDataStore.WriteBits:
each bit is bounds-checked individually and written into bit
`bitAddr mod 16` of word `bitAddr / 16`; on an out-of-range bit the loop
returns with the words mutated so far kept. -/
def finsWriteBitsLoop (data : List Nat) (address : Nat) :
    List Bool → Nat → List Nat × Option DSError
  | [], _ => (data, none)
  | v :: rest, i =>
    let bitAddr := address + i
    let wordAddr := bitAddr / 16
    let bitPos := bitAddr % 16
    if wordAddr ≥ data.length then (data, some .addressOutOfRange)
    else
      let w := data.getD wordAddr 0
      let w2 := if v then w ||| (1 <<< bitPos) else w &&& (0xFFFF ^^^ (1 <<< bitPos))
      finsWriteBitsLoop (data.set wordAddr w2) address rest (i + 1)

/-- FINSDataStore.WriteBits (fins/datastore.go): map lookup then the
per-bit write loop over the word slice. -/
def FINSDataStore.WriteBits (s : FINSDataStore) (area : String) (address : Nat)
    (values : List Bool) : FINSDataStore × Option DSError :=
  match s.areas.lookup area with
  | none => (s, some .areaNotFound)
  | some data =>
    let r := finsWriteBitsLoop data address values 0
    (⟨updateArea s.areas area r.1⟩, r.2)

/-- One iteration of the `for id, values := range data` loop of
FINSDataStore.Restore: a `[]uint16` value for an existing area is copied
in up to the smaller length, everything else is ignored. -/
def finsRestoreStep (acc : FINSDataStore) (entry : String × RVal) : FINSDataStore :=
  match entry.2 with
  | .words ws =>
    match acc.areas.lookup entry.1 with
    | some existing => ⟨updateArea acc.areas entry.1 (restoreCopy existing ws)⟩
    | none => acc
  | _ => acc

/-- FINSDataStore.Restore (fins/datastore.go): fold the restore step over
the entries of the input map; always returns nil error. -/
def FINSDataStore.Restore (s : FINSDataStore) (data : List (String × RVal)) :
    FINSDataStore × Option DSError :=
  (data.foldl finsRestoreStep s, none)

/-- Handler-level errors of the RTU adapter chain (rtu/errors.go values
plus the ModbusException and default branches of buildExceptionFromError). -/
inductive HandlerError where
  | illegalFunction
  | illegalDataAddress
  | illegalDataValue
  | modbusException (code : Nat)
  | other
deriving DecidableEq, Repr

/-- Processor.buildExceptionFromError (processor, unnamed part): map the
handler error to an exception code and build the exception response. -/
def buildExceptionFromError (unitID funcCode : Nat) (e : HandlerError) : List Nat :=
  let exCode := match e with
    | .illegalFunction => ExceptionIllegalFunction
    | .illegalDataAddress => ExceptionIllegalDataAddress
    | .illegalDataValue => ExceptionIllegalDataValue
    | .modbusException code => code
    | .other => ExceptionSlaveDeviceFailure
  BuildExceptionResponse unitID funcCode exCode

/-- DataStoreHandler.IsUnitIdEnabled (modbus/factory.go): a unit id
responds unless it is in the disabled set. -/
def isUnitIdEnabled (disabled : List Nat) (unitID : Nat) : Bool :=
  !(disabled.contains unitID)

/-- RTUDataStoreAdapter.HandleWriteSingleCoil (modbus/datastore_adapter.go):
disabled unit → ErrIllegalFunction; SetCoil = WriteBit on `coils`, and a
datastore error becomes ErrIllegalDataAddress. -/
def HandleWriteSingleCoil (disabled : List Nat) (s : ModbusDataStore)
    (unitID address : Nat) (value : Bool) : ModbusDataStore × Option HandlerError :=
  if isUnitIdEnabled disabled unitID = false then (s, some .illegalFunction)
  else
    let r := s.WriteBit AreaCoils address value
    match r.2 with
    | some _ => (r.1, some .illegalDataAddress)
    | none => (r.1, none)

/-- RTUDataStoreAdapter.HandleWriteMultipleCoils (modbus/datastore_adapter.go):
disabled unit → ErrIllegalFunction; SetCoils = WriteBits on `coils`, and a
datastore error becomes ErrIllegalDataAddress. -/
def HandleWriteMultipleCoils (disabled : List Nat) (s : ModbusDataStore)
    (unitID address : Nat) (values : List Bool) : ModbusDataStore × Option HandlerError :=
  if isUnitIdEnabled disabled unitID = false then (s, some .illegalFunction)
  else
    let r := s.WriteBits AreaCoils address values
    match r.2 with
    | some _ => (r.1, some .illegalDataAddress)
    | none => (r.1, none)

/-- unpackBools (processor, unnamed part): bit `i mod 8` of byte `i / 8`,
LSB-first; positions beyond the supplied bytes stay false. -/
def unpackBools (data : List Nat) (count : Nat) : List Bool :=
  (List.range count).map (fun i =>
    if i / 8 < data.length then (data.getD (i / 8) 0 &&& (1 <<< (i % 8))) ≠ 0 else false)

/-- Processor.processWriteSingleCoil (processor, unnamed part): a 2-byte
value field is required, 0xFF00 means true and 0x0000 means false, any
other value yields exception 0x03 without calling the handler; handler
errors are mapped by buildExceptionFromError, success echoes the request. -/
def processWriteSingleCoil (disabled : List Nat) (s : ModbusDataStore) (req : Request) :
    ModbusDataStore × List Nat :=
  if req.Data.length < 2 then
    (s, BuildExceptionResponse req.UnitID req.FunctionCode ExceptionIllegalDataValue)
  else
    let value := be16 (req.Data.getD 0 0) (req.Data.getD 1 0)
    let boolValue : Option Bool :=
      if value = 0xFF00 then some true
      else if value = 0x0000 then some false
      else none
    match boolValue with
    | none => (s, BuildExceptionResponse req.UnitID req.FunctionCode ExceptionIllegalDataValue)
    | some b =>
      let r := HandleWriteSingleCoil disabled s req.UnitID req.Address b
      match r.2 with
      | some e => (r.1, buildExceptionFromError req.UnitID req.FunctionCode e)
      | none => (r.1, BuildWriteSingleResponse req.UnitID req.FunctionCode req.Address value)

/-- Processor.processWriteMultipleCoils (processor, unnamed part): unpack
`Quantity` bits from the data bytes, delegate to the handler, and answer
with the write-multiple echo on success. -/
def processWriteMultipleCoils (disabled : List Nat) (s : ModbusDataStore) (req : Request) :
    ModbusDataStore × List Nat :=
  let values := unpackBools req.Data req.Quantity
  let r := HandleWriteMultipleCoils disabled s req.UnitID req.Address values
  match r.2 with
  | some e => (r.1, buildExceptionFromError req.UnitID req.FunctionCode e)
  | none => (r.1, BuildWriteMultipleResponse req.UnitID req.FunctionCode req.Address req.Quantity)

/-- FINS command header (fins frame module, unnamed part): ICF, RSV, GCT,
destination triple, source triple, SID. -/
structure CommandHeader where
  ICF : Nat
  RSV : Nat
  GCT : Nat
  DNA : Nat
  DA1 : Nat
  DA2 : Nat
  SNA : Nat
  SA1 : Nat
  SA2 : Nat
  SID : Nat
deriving DecidableEq, Repr

/-- CommandHeader.CreateResponseHeader (fins frame module, unnamed part):
or 0x40 into ICF, swap the destination and source triples, keep the rest. -/
def CommandHeader.CreateResponseHeader (h : CommandHeader) : CommandHeader :=
  { ICF := h.ICF ||| 0x40
    RSV := h.RSV
    GCT := h.GCT
    DNA := h.SNA
    DA1 := h.SA1
    DA2 := h.SA2
    SNA := h.DNA
    SA1 := h.DA1
    SA2 := h.DA2
    SID := h.SID }

/-- FINS memory-area write request (fins frame module, unnamed part). -/
structure MemoryAreaWriteRequest where
  AreaCode : Nat
  Address : Nat
  BitAddress : Nat
  Count : Nat
  Data : List Nat
deriving DecidableEq, Repr

/-- ParseMemoryAreaWriteRequest (fins frame module, unnamed part): needs at
least the 6-byte prefix plus `Count*2` payload bytes; a longer payload is
truncated to `Count*2` bytes. -/
def ParseMemoryAreaWriteRequest (data : List Nat) : Option MemoryAreaWriteRequest :=
  if data.length < 6 then none
  else
    let count := be16 (data.getD 4 0) (data.getD 5 0)
    let expectedDataLen := count * 2
    if data.length < 6 + expectedDataLen then none
    else some ⟨data.getD 0 0, be16 (data.getD 1 0) (data.getD 2 0), data.getD 3 0,
               count, (data.drop 6).take expectedDataLen⟩

/-- AreaCodeToID (fins/memory.go): the six wire-addressable codes; unknown
codes map to the empty string. -/
def AreaCodeToID (code : Nat) : String :=
  if code = 0x30 then "CIO"
  else if code = 0x31 then "WR"
  else if code = 0xB0 then "HR"
  else if code = 0xB1 then "AR"
  else if code = 0x82 then "DM"
  else if code = 0x09 then "TIM"
  else ""

/-- FINS end code 0x0000 (normal completion). -/
def ErrNormal : Nat := 0x0000

/-- FINS end code 0x0401 (command not supported). -/
def ErrCommandNotSupported : Nat := 0x0401

/-- FINS end code 0x1004 (command format error). -/
def ErrCommandFormatError : Nat := 0x1004

/-- FINS end code 0x1101 (area classification error). -/
def ErrAreaClassError : Nat := 0x1101

/-- FINS end code 0x1103 (address range error). -/
def ErrAddressRangeError : Nat := 0x1103

/-- Handler.handleMemoryAreaWrite (fins/handler.go), reduced to the
resulting datastore and the main end code of the response: parse failure
→ 0x1004, unknown area code → 0x1101, datastore range error → 0x1103,
otherwise write the big-endian payload words and answer 0x0000. -/
def handleMemoryAreaWrite (s : FINSDataStore) (body : List Nat) : FINSDataStore × Nat :=
  match ParseMemoryAreaWriteRequest body with
  | none => (s, ErrCommandFormatError)
  | some req =>
    let areaID := AreaCodeToID req.AreaCode
    if areaID = "" then (s, ErrAreaClassError)
    else
      let words := (List.range req.Count).map
        (fun i => be16 (req.Data.getD (i * 2) 0) (req.Data.getD (i * 2 + 1) 0))
      let r := s.WriteWords areaID req.Address words
      match r.2 with
      | some _ => (r.1, ErrAddressRangeError)
      | none => (r.1, ErrNormal)

/-! ## Helper lemmas -/

theorem crcRound_lt {crc : Nat} (h : crc < 65536) : crcRound crc < 65536 := by
  unfold crcRound
  have hs : crc >>> 1 < 65536 := by
    rw [Nat.shiftRight_eq_div_pow]
    exact Nat.lt_of_le_of_lt (Nat.div_le_self _ _) h
  split
  · have h16 : (65536 : Nat) = 2 ^ 16 := by norm_num
    rw [h16] at hs ⊢
    exact Nat.xor_lt_two_pow hs (by norm_num)
  · exact hs

theorem crcRounds_lt (n : Nat) {crc : Nat} (h : crc < 65536) : crcRounds n crc < 65536 := by
  induction n generalizing crc with
  | zero => exact h
  | succ k ih => exact ih (crcRound_lt h)

theorem crcFold_lt (data : List Nat) : ∀ (crc : Nat), (∀ b ∈ data, b < 256) → crc < 65536 →
    data.foldl (fun crc b => crcRounds 8 (crc ^^^ b)) crc < 65536 := by
  induction data with
  | nil => intro crc _ h; simpa using h
  | cons b rest ih =>
    intro crc hb h
    have hb0 : b < 256 := hb b (List.mem_cons_self _ _)
    have hx : crc ^^^ b < 65536 := by
      have h16 : (65536 : Nat) = 2 ^ 16 := by norm_num
      rw [h16] at h ⊢
      exact Nat.xor_lt_two_pow h (by omega)
    simpa using ih (crcRounds 8 (crc ^^^ b))
      (fun x hm => hb x (List.mem_cons_of_mem _ hm)) (crcRounds_lt 8 hx)

theorem CRC16_lt (data : List Nat) (hb : ∀ b ∈ data, b < 256) : CRC16 data < 65536 :=
  crcFold_lt data 0xFFFF hb (by norm_num)

theorem crc_recombine (c : Nat) (hc : c < 65536) :
    (c &&& 0xFF) ||| (((c >>> 8) % 256) <<< 8) = c := by
  have h8 : c >>> 8 < 256 := by
    rw [Nat.shiftRight_eq_div_pow]
    have : (2 : Nat) ^ 8 = 256 := by norm_num
    rw [this]
    exact Nat.div_lt_of_lt_mul (by omega)
  rw [Nat.mod_eq_of_lt h8]
  apply Nat.eq_of_testBit_eq
  intro i
  rw [Nat.testBit_lor, Nat.testBit_shiftLeft, Nat.testBit_shiftRight]
  have hff : (0xFF : Nat) = 2 ^ 8 - 1 := by norm_num
  rw [hff, Nat.and_pow_two_sub_one_eq_mod, Nat.testBit_mod_two_pow]
  by_cases hi : i < 8
  · have hge : ¬(i ≥ 8) := by omega
    simp [hi, hge]
  · have hge : i ≥ 8 := by omega
    have heq : 8 + (i - 8) = i := by omega
    simp [hi, hge, heq]

/-! ## C1: CRC round trip -/

/-- C1 counterexample: for the empty byte sequence the appended frame has
only 2 bytes, and CheckCRC rejects every frame shorter than 3 bytes, so
`CheckCRC (AppendCRC data) = true` fails at `data = []`. -/
theorem c1_empty_frame_fails_check : CheckCRC (AppendCRC []) = false := by decide

/-- C1 (amended): for every NONEMPTY byte sequence `data`, appending the
CRC-16/MODBUS of `data` in little-endian order yields a frame that passes
the CRC check. -/
theorem c1_append_crc_check (data : List Nat) (hne : data ≠ [])
    (hb : ∀ b ∈ data, b < 256) : CheckCRC (AppendCRC data) = true := by
  have hlt : CRC16 data < 65536 := CRC16_lt data hb
  have hpos : 0 < data.length := List.length_pos.mpr hne
  have hget0 : (data ++ [CRC16 data &&& 0xFF, (CRC16 data >>> 8) % 256]).getD data.length 0
      = CRC16 data &&& 0xFF := by
    rw [List.getD_append_right _ _ _ _ (Nat.le_refl _)]
    simp
  have hget1 : (data ++ [CRC16 data &&& 0xFF, (CRC16 data >>> 8) % 256]).getD
      (data.length + 1) 0 = (CRC16 data >>> 8) % 256 := by
    rw [List.getD_append_right _ _ _ _ (by omega)]
    have h1 : data.length + 1 - data.length = 1 := by omega
    rw [h1]
    simp
  simp only [AppendCRC, CheckCRC]
  rw [show (data ++ [CRC16 data &&& 0xFF, (CRC16 data >>> 8) % 256]).length
      = data.length + 2 from by simp]
  rw [if_neg (show ¬(data.length + 2 < 3) from by omega)]
  rw [show data.length + 2 - 2 = data.length from by omega]
  rw [List.take_left, hget0, hget1, crc_recombine (CRC16 data) hlt]
  simp

/-- C1 witness: the amended round-trip theorem applied at `[1, 2, 3]`. -/
theorem c1_append_crc_check_witness :
    ([1, 2, 3] : List Nat) ≠ [] ∧ (∀ b ∈ ([1, 2, 3] : List Nat), b < 256) ∧
    CheckCRC (AppendCRC [1, 2, 3]) = true :=
  ⟨by decide, by decide, c1_append_crc_check [1, 2, 3] (by decide) (by decide)⟩

/-! ## C2: multi-word read range check -/

/-- C2: in both datastores, ReadWords with `addr + count = areaSize` succeeds
and returns `count` words, and with `addr + count = areaSize + 1` it fails
with AddressOutOfRange; the range check is `addr + count ≤ size`. -/
theorem c2_readwords_boundary :
    (∀ (s : FINSDataStore) (area : String) (data : List Nat) (addr count : Nat),
       s.areas.lookup area = some data →
       (addr + count = data.length →
          s.ReadWords area addr count = .ok ((data.drop addr).take count) ∧
          ((data.drop addr).take count).length = count) ∧
       (addr + count = data.length + 1 →
          s.ReadWords area addr count = .error .addressOutOfRange)) ∧
    (∀ (s : ModbusDataStore) (addr count : Nat),
       (addr + count = s.holdingRegs.length →
          s.ReadWords AreaHoldingRegs addr count = .ok ((s.holdingRegs.drop addr).take count) ∧
          ((s.holdingRegs.drop addr).take count).length = count) ∧
       (addr + count = s.holdingRegs.length + 1 →
          s.ReadWords AreaHoldingRegs addr count = .error .addressOutOfRange) ∧
       (addr + count = s.inputRegs.length →
          s.ReadWords AreaInputRegs addr count = .ok ((s.inputRegs.drop addr).take count) ∧
          ((s.inputRegs.drop addr).take count).length = count) ∧
       (addr + count = s.inputRegs.length + 1 →
          s.ReadWords AreaInputRegs addr count = .error .addressOutOfRange)) := by
  constructor
  · intro s area data addr count hlu
    constructor
    · intro heq
      have hng : ¬(data.length < addr + count) := by omega
      refine ⟨?_, ?_⟩
      · simp [FINSDataStore.ReadWords, hlu, hng]
      · simp only [List.length_take, List.length_drop]
        omega
    · intro heq
      have hg : data.length < addr + count := by omega
      simp [FINSDataStore.ReadWords, hlu, hg]
  · intro s addr count
    refine ⟨?_, ?_, ?_, ?_⟩
    · intro heq
      have hng : ¬(s.holdingRegs.length < addr + count) := by omega
      refine ⟨?_, ?_⟩
      · simp [ModbusDataStore.ReadWords, hng]
      · simp only [List.length_take, List.length_drop]
        omega
    · intro heq
      have hg : s.holdingRegs.length < addr + count := by omega
      simp [ModbusDataStore.ReadWords, hg]
    · intro heq
      have hne : ¬(AreaInputRegs = AreaHoldingRegs) := by decide
      have hng : ¬(s.inputRegs.length < addr + count) := by omega
      refine ⟨?_, ?_⟩
      · simp [ModbusDataStore.ReadWords, hne, hng]
      · simp only [List.length_take, List.length_drop]
        omega
    · intro heq
      have hne : ¬(AreaInputRegs = AreaHoldingRegs) := by decide
      have hg : s.inputRegs.length < addr + count := by omega
      simp [ModbusDataStore.ReadWords, hne, hg]

/-- C2 witness: the boundary behavior at concrete stores. -/
theorem c2_readwords_boundary_witness :
    (FINSDataStore.mk [("DM", [5, 6, 7])]).ReadWords "DM" 1 2 = .ok [6, 7] ∧
    (FINSDataStore.mk [("DM", [5, 6, 7])]).ReadWords "DM" 2 2 = .error .addressOutOfRange ∧
    (ModbusDataStore.mk [] [] [8, 9] []).ReadWords AreaHoldingRegs 0 2 = .ok [8, 9] ∧
    (ModbusDataStore.mk [] [] [8, 9] []).ReadWords AreaHoldingRegs 1 2
      = .error .addressOutOfRange := by
  refine ⟨?_, ?_, ?_, ?_⟩
  · exact ((c2_readwords_boundary.1 (FINSDataStore.mk [("DM", [5, 6, 7])]) "DM" [5, 6, 7] 1 2
      (by decide)).1 (by decide)).1
  · exact (c2_readwords_boundary.1 (FINSDataStore.mk [("DM", [5, 6, 7])]) "DM" [5, 6, 7] 2 2
      (by decide)).2 (by decide)
  · exact ((c2_readwords_boundary.2 (ModbusDataStore.mk [] [] [8, 9] []) 0 2).1 (by decide)).1
  · exact (c2_readwords_boundary.2 (ModbusDataStore.mk [] [] [8, 9] []) 1 2).2.1 (by decide)

/-! ## C3: out-of-range rejection before mutation -/

/-- C3 counterexample: FINS WriteBits checks each bit inside the write loop,
so writing 2 bits starting at bit 15 of a 1-word area sets bit 15 and only
then fails: the call returns AddressOutOfRange with a mutated datastore. -/
theorem c3_fins_writebits_mutates_before_reject :
    ((FINSDataStore.mk [("DM", [0])]).WriteBits "DM" 15 [true, true]).2
      = some .addressOutOfRange ∧
    ((FINSDataStore.mk [("DM", [0])]).WriteBits "DM" 15 [true, true]).1
      ≠ FINSDataStore.mk [("DM", [0])] := by decide

/-- C3 (amended): an AddressOutOfRange result leaves the datastore unchanged
for Modbus WriteBits, Modbus WriteWords and FINS WriteWords, whose range
check precedes the copy; FINS WriteBits validates per bit inside its loop
and may mutate earlier in-range bits before failing. -/
theorem c3_write_reject_atomic :
    (∀ (s : ModbusDataStore) (area : String) (addr : Nat) (values : List Bool),
       (s.WriteBits area addr values).2 = some .addressOutOfRange →
       (s.WriteBits area addr values).1 = s) ∧
    (∀ (s : ModbusDataStore) (area : String) (addr : Nat) (values : List Nat),
       (s.WriteWords area addr values).2 = some .addressOutOfRange →
       (s.WriteWords area addr values).1 = s) ∧
    (∀ (s : FINSDataStore) (area : String) (addr : Nat) (values : List Nat),
       (s.WriteWords area addr values).2 = some .addressOutOfRange →
       (s.WriteWords area addr values).1 = s) := by
  refine ⟨?_, ?_, ?_⟩
  · intro s area addr values h
    by_cases hc : area = AreaCoils
    · subst hc
      by_cases hr : s.coils.length < addr + values.length
      · simp [ModbusDataStore.WriteBits, hr]
      · simp [ModbusDataStore.WriteBits, hr] at h
    · by_cases hd : area = AreaDiscreteInputs
      · subst hd
        by_cases hr : s.discreteInputs.length < addr + values.length
        · simp [ModbusDataStore.WriteBits, hr, hc]
        · simp [ModbusDataStore.WriteBits, hr, hc] at h
      · simp [ModbusDataStore.WriteBits, hc, hd]
  · intro s area addr values h
    by_cases hc : area = AreaHoldingRegs
    · subst hc
      by_cases hr : s.holdingRegs.length < addr + values.length
      · simp [ModbusDataStore.WriteWords, hr]
      · simp [ModbusDataStore.WriteWords, hr] at h
    · by_cases hd : area = AreaInputRegs
      · subst hd
        by_cases hr : s.inputRegs.length < addr + values.length
        · simp [ModbusDataStore.WriteWords, hr, hc]
        · simp [ModbusDataStore.WriteWords, hr, hc] at h
      · simp [ModbusDataStore.WriteWords, hc, hd]
  · intro s area addr values h
    cases hlu : s.areas.lookup area with
    | none => simp [FINSDataStore.WriteWords, hlu]
    | some data =>
      by_cases hr : data.length < addr + values.length
      · simp [FINSDataStore.WriteWords, hlu, hr]
      · simp [FINSDataStore.WriteWords, hlu, hr] at h

/-- C3 witness: atomic rejection applied at a concrete out-of-range write. -/
theorem c3_write_reject_atomic_witness :
    ((ModbusDataStore.mk [false] [] [] []).WriteBits AreaCoils 1 [true]).2
      = some .addressOutOfRange ∧
    ((ModbusDataStore.mk [false] [] [] []).WriteBits AreaCoils 1 [true]).1
      = ModbusDataStore.mk [false] [] [] [] :=
  ⟨by decide, c3_write_reject_atomic.1 (ModbusDataStore.mk [false] [] [] [])
    AreaCoils 1 [true] (by decide)⟩

/-! ## C4: write-single-coil value semantics -/

/-- C4: for a write-single-coil request with a 2-byte value field, 0xFF00
writes true, 0x0000 writes false, and any other 16-bit value yields an
exception response with code 0x03 without touching the datastore. -/
theorem c4_write_single_coil_semantics (disabled : List Nat) (s : ModbusDataStore)
    (req : Request) (hi lo : Nat) (hdata : req.Data = [hi, lo])
    (hen : isUnitIdEnabled disabled req.UnitID = true)
    (haddr : req.Address < s.coils.length) :
    (be16 hi lo = 0xFF00 →
       processWriteSingleCoil disabled s req =
         ({ s with coils := s.coils.set req.Address true },
          BuildWriteSingleResponse req.UnitID req.FunctionCode req.Address 0xFF00)) ∧
    (be16 hi lo = 0x0000 →
       processWriteSingleCoil disabled s req =
         ({ s with coils := s.coils.set req.Address false },
          BuildWriteSingleResponse req.UnitID req.FunctionCode req.Address 0x0000)) ∧
    (be16 hi lo ≠ 0xFF00 → be16 hi lo ≠ 0x0000 →
       processWriteSingleCoil disabled s req =
         (s, BuildExceptionResponse req.UnitID req.FunctionCode ExceptionIllegalDataValue)) := by
  have hnl : ¬(s.coils.length ≤ req.Address) := Nat.not_le.mpr haddr
  have hwbt : s.WriteBit AreaCoils req.Address true
      = ({ s with coils := s.coils.set req.Address true }, none) := by
    simp [ModbusDataStore.WriteBit, hnl]
  have hwbf : s.WriteBit AreaCoils req.Address false
      = ({ s with coils := s.coils.set req.Address false }, none) := by
    simp [ModbusDataStore.WriteBit, hnl]
  have hht : HandleWriteSingleCoil disabled s req.UnitID req.Address true
      = ({ s with coils := s.coils.set req.Address true }, none) := by
    simp [HandleWriteSingleCoil, hen, hwbt]
  have hhf : HandleWriteSingleCoil disabled s req.UnitID req.Address false
      = ({ s with coils := s.coils.set req.Address false }, none) := by
    simp [HandleWriteSingleCoil, hen, hwbf]
  refine ⟨?_, ?_, ?_⟩
  · intro hv
    simp [processWriteSingleCoil, hdata, hv, hht]
  · intro hv
    simp [processWriteSingleCoil, hdata, hv, hhf]
  · intro hv1 hv2
    simp [processWriteSingleCoil, hdata, hv1, hv2]

/-- C4 witness: spec scenario S2 shape on a 2-coil store, plus a rejected
value 0x0001. -/
theorem c4_write_single_coil_semantics_witness :
    processWriteSingleCoil [] (ModbusDataStore.mk [false, false] [] [] [])
      ⟨17, 5, 1, 1, [0xFF, 0x00]⟩
      = (ModbusDataStore.mk [false, true] [] [] [],
         BuildWriteSingleResponse 17 5 1 0xFF00) ∧
    processWriteSingleCoil [] (ModbusDataStore.mk [false, false] [] [] [])
      ⟨17, 5, 1, 1, [0x00, 0x01]⟩
      = (ModbusDataStore.mk [false, false] [] [] [],
         BuildExceptionResponse 17 5 ExceptionIllegalDataValue) := by
  constructor
  · have h := (c4_write_single_coil_semantics [] (ModbusDataStore.mk [false, false] [] [] [])
      ⟨17, 5, 1, 1, [0xFF, 0x00]⟩ 0xFF 0x00 rfl (by decide) (by decide)).1 (by decide)
    simpa using h
  · have h := (c4_write_single_coil_semantics [] (ModbusDataStore.mk [false, false] [] [] [])
      ⟨17, 5, 1, 1, [0x00, 0x01]⟩ 0x00 0x01 rfl (by decide) (by decide)).2.2
      (by decide) (by decide)
    simpa using h

/-! ## C6: FINS response header inversion -/

/-- C6: the response header sets bit 6 of ICF, swaps the destination triple
(DNA, DA1, DA2) with the source triple (SNA, SA1, SA2), and keeps the SID. -/
theorem c6_response_header_inversion (h : CommandHeader) :
    (h.CreateResponseHeader.ICF).testBit 6 = true ∧
    h.CreateResponseHeader.DNA = h.SNA ∧ h.CreateResponseHeader.DA1 = h.SA1 ∧
    h.CreateResponseHeader.DA2 = h.SA2 ∧ h.CreateResponseHeader.SNA = h.DNA ∧
    h.CreateResponseHeader.SA1 = h.DA1 ∧ h.CreateResponseHeader.SA2 = h.DA2 ∧
    h.CreateResponseHeader.SID = h.SID := by
  refine ⟨?_, rfl, rfl, rfl, rfl, rfl, rfl, rfl⟩
  show (h.ICF ||| 0x40).testBit 6 = true
  rw [Nat.testBit_lor]
  have h64 : (0x40 : Nat).testBit 6 = true := by decide
  simp [h64]


/-! ## C5 / C8: RTU frame parsing -/

theorem getD_take_of_lt (l : List Nat) {n i : Nat} (h : i < n) :
    (l.take n).getD i 0 = l.getD i 0 := by
  rw [List.getD_eq_getElem?_getD, List.getD_eq_getElem?_getD, List.getElem?_take, if_pos h]

set_option maxRecDepth 8192 in
/-- C5 counterexample: a 6-byte frame with a valid CRC and function code
0x03 does NOT parse; read requests need a 4-byte payload before the CRC,
so the minimum successful read frame has 8 bytes. -/
theorem c5_six_byte_read_frame_rejected :
    CheckCRC [0x11, 0x03, 0x00, 0x00, 0xF5, 0x18] = true ∧
    ParseRequest [0x11, 0x03, 0x00, 0x00, 0xF5, 0x18] = .error .frameTooShort :=
  ⟨rfl, rfl⟩

/-- C5 (amended): frames shorter than 6 bytes fail with frame-too-short,
and every 8-byte frame with a valid CRC and function code 01/02/03/04
parses successfully. -/
theorem c5_parse_length_boundary :
    (∀ frame : List Nat, frame.length < 6 → ParseRequest frame = .error .frameTooShort) ∧
    (∀ frame : List Nat, frame.length = 8 → CheckCRC frame = true →
       (frame.getD 1 0 = 0x01 ∨ frame.getD 1 0 = 0x02 ∨ frame.getD 1 0 = 0x03 ∨
        frame.getD 1 0 = 0x04) →
       ∃ req, ParseRequest frame = .ok req ∧ req.FunctionCode = frame.getD 1 0) := by
  constructor
  · intro frame h
    unfold ParseRequest
    rw [if_pos h]
  · intro frame hlen hcrc hfc
    have h6 : ¬(frame.length < 6) := by omega
    have hck : ¬(CheckCRC frame = false) := by simp [hcrc]
    unfold ParseRequest rtuData
    rw [if_neg h6, if_neg hck]
    rw [show frame.length - 2 = 6 from by omega]
    rw [getD_take_of_lt frame (show (1 : Nat) < 6 from by norm_num)]
    rw [if_pos hfc]
    have hL : ¬((frame.take 6).length < 6) := by
      simp only [List.length_take]
      omega
    rw [if_neg hL]
    exact ⟨_, rfl, rfl⟩

set_option maxRecDepth 8192 in
/-- C5 witness: a 3-byte frame is rejected, and spec scenario S1's 8-byte
read-holding-registers request parses. -/
theorem c5_parse_length_boundary_witness :
    ParseRequest [0x11, 0x03, 0x00] = .error .frameTooShort ∧
    (∃ req, ParseRequest [0x11, 0x03, 0x00, 0x6B, 0x00, 0x03, 0x76, 0x87] = .ok req ∧
       req.FunctionCode = [0x11, 0x03, 0x00, 0x6B, 0x00, 0x03, 0x76, 0x87].getD 1 0) := by
  constructor
  · exact c5_parse_length_boundary.1 _ (by decide)
  · exact c5_parse_length_boundary.2 _ (by decide) (by rfl) (by decide)

/-- C8: a successfully parsed RTU request carries one of the eight supported
function codes, and a well-formed frame with any other function code is
rejected at parse time with an unsupported-function-code error. -/
theorem c8_function_code_filter :
    (∀ (frame : List Nat) (req : Request), ParseRequest frame = .ok req →
       req.FunctionCode = 0x01 ∨ req.FunctionCode = 0x02 ∨ req.FunctionCode = 0x03 ∨
       req.FunctionCode = 0x04 ∨ req.FunctionCode = 0x05 ∨ req.FunctionCode = 0x06 ∨
       req.FunctionCode = 0x0F ∨ req.FunctionCode = 0x10) ∧
    (∀ frame : List Nat, ¬(frame.length < 6) → CheckCRC frame = true →
       frame.getD 1 0 ∉ ([0x01, 0x02, 0x03, 0x04, 0x05, 0x06, 0x0F, 0x10] : List Nat) →
       ParseRequest frame = .error (.unsupportedFunctionCode (frame.getD 1 0))) := by
  constructor
  · intro frame req h
    unfold ParseRequest at h
    split at h
    · simp at h
    split at h
    · simp at h
    split at h
    · rename_i hA
      split at h
      · simp at h
      · rw [Except.ok.injEq] at h
        subst h
        rcases hA with h1 | h1 | h1 | h1
        · exact Or.inl h1
        · exact Or.inr (Or.inl h1)
        · exact Or.inr (Or.inr (Or.inl h1))
        · exact Or.inr (Or.inr (Or.inr (Or.inl h1)))
    split at h
    · rename_i hB
      split at h
      · simp at h
      · rw [Except.ok.injEq] at h
        subst h
        rcases hB with h1 | h1
        · exact Or.inr (Or.inr (Or.inr (Or.inr (Or.inl h1))))
        · exact Or.inr (Or.inr (Or.inr (Or.inr (Or.inr (Or.inl h1)))))
    split at h
    · rename_i hC
      split at h
      · simp at h
      split at h
      · simp at h
      · rw [Except.ok.injEq] at h
        subst h
        exact Or.inr (Or.inr (Or.inr (Or.inr (Or.inr (Or.inr (Or.inl hC))))))
    split at h
    · rename_i hD
      split at h
      · simp at h
      split at h
      · simp at h
      · rw [Except.ok.injEq] at h
        subst h
        exact Or.inr (Or.inr (Or.inr (Or.inr (Or.inr (Or.inr (Or.inr hD))))))
    · simp at h
  · intro frame h6 hcrc hnotin
    have hck : ¬(CheckCRC frame = false) := by simp [hcrc]
    have h12 : (1 : Nat) < frame.length - 2 := by omega
    simp only [List.mem_cons, List.not_mem_nil, or_false, not_or] at hnotin
    obtain ⟨hn1, hn2, hn3, hn4, hn5, hn6, hn15, hn16⟩ := hnotin
    unfold ParseRequest rtuData
    rw [getD_take_of_lt frame h12]
    rw [if_neg h6, if_neg hck]
    rw [if_neg (show ¬(frame.getD 1 0 = 0x01 ∨ frame.getD 1 0 = 0x02 ∨
      frame.getD 1 0 = 0x03 ∨ frame.getD 1 0 = 0x04) from by
        simp only [not_or]
        exact ⟨hn1, hn2, hn3, hn4⟩)]
    rw [if_neg (show ¬(frame.getD 1 0 = 0x05 ∨ frame.getD 1 0 = 0x06) from by
      simp only [not_or]
      exact ⟨hn5, hn6⟩)]
    rw [if_neg hn15, if_neg hn16]

set_option maxRecDepth 8192 in
/-- C8 witness: function code 0x07 on an otherwise valid frame is rejected
as unsupported. -/
theorem c8_function_code_filter_witness :
    ParseRequest [0x11, 0x07, 0x00, 0x00, 0xB4, 0xD9]
      = .error (.unsupportedFunctionCode 0x07) := by
  have h := c8_function_code_filter.2 [0x11, 0x07, 0x00, 0x00, 0xB4, 0xD9]
    (by decide) (by rfl) (by decide)
  simpa using h

/-! ## C7: FINS memory-area write payload length -/

/-- C7 counterexample: a write body declaring Count = 1 with a 4-byte
payload (payload length ≠ 2·Count) is NOT answered with 0x1004: the parser
truncates the payload to 2·Count bytes, the word is written, and the end
code is 0x0000. -/
theorem c7_long_payload_accepted :
    handleMemoryAreaWrite ⟨[("DM", [0, 0])]⟩
        [0x82, 0x00, 0x00, 0x00, 0x00, 0x01, 0x12, 0x34, 0x56, 0x78]
      = (⟨[("DM", [0x1234, 0])]⟩, ErrNormal) ∧
    ErrNormal ≠ ErrCommandFormatError ∧
    FINSDataStore.mk [("DM", [0x1234, 0])] ≠ ⟨[("DM", [0, 0])]⟩ := by
  refine ⟨by decide, by decide, by decide⟩

/-- C7 (amended): a memory-area write whose payload is SHORTER than 2·Count
bytes (including bodies shorter than the 6-byte prefix) is answered with
end code 0x1004 and the datastore is not written; a longer payload is
truncated to 2·Count bytes and processed normally. -/
theorem c7_short_payload_rejected (s : FINSDataStore) (body : List Nat)
    (h : body.length < 6 + be16 (body.getD 4 0) (body.getD 5 0) * 2) :
    handleMemoryAreaWrite s body = (s, ErrCommandFormatError) := by
  have hp : ParseMemoryAreaWriteRequest body = none := by
    simp only [ParseMemoryAreaWriteRequest]
    by_cases h6 : body.length < 6
    · rw [if_pos h6]
    · rw [if_neg h6, if_pos h]
  unfold handleMemoryAreaWrite
  rw [hp]

/-- C7 witness: Count = 2 with only 2 payload bytes is rejected with 0x1004
and the store is unchanged. -/
theorem c7_short_payload_rejected_witness :
    handleMemoryAreaWrite ⟨[("DM", [0, 0])]⟩ [0x82, 0x00, 0x00, 0x00, 0x00, 0x02, 0x12, 0x34]
      = (⟨[("DM", [0, 0])]⟩, ErrCommandFormatError) :=
  c7_short_payload_rejected ⟨[("DM", [0, 0])]⟩ _ (by decide)

/-! ## C9: write-multiple-coils padding -/

theorem copyInto_getD {α : Type} (dst : List α) (a : Nat) (src : List α) (i : Nat) (d : α)
    (hi : i < src.length) (hle : a + src.length ≤ dst.length) :
    (copyInto dst a src).getD (a + i) d = src.getD i d := by
  have ha : a ≤ dst.length := by omega
  have hta : (dst.take a).length = a := by
    simp only [List.length_take]
    omega
  unfold copyInto
  rw [List.append_assoc, List.getD_eq_getElem?_getD,
    List.getElem?_append_right (by rw [hta]; omega), hta,
    show a + i - a = i from by omega,
    List.getElem?_append_left (by simp only [List.length_take]; omega),
    List.getElem?_take, if_pos (by omega), ← List.getD_eq_getElem?_getD]

theorem unpackBools_length (data : List Nat) (count : Nat) :
    (unpackBools data count).length = count := by
  unfold unpackBools
  simp

theorem unpackBools_getD (data : List Nat) (count i : Nat) (h : i < count) (d : Bool) :
    (unpackBools data count).getD i d
      = if i / 8 < data.length then decide ((data.getD (i / 8) 0 &&& (1 <<< (i % 8))) ≠ 0)
        else false := by
  unfold unpackBools
  rw [List.getD_eq_getElem?_getD, List.getElem?_map, List.getElem?_range h]
  rfl

/-- C9: a write-multiple-coils request whose data bytes supply fewer than
Quantity bits is not rejected: the processor answers with the normal
write-multiple echo, writes exactly Quantity coils, and every coil beyond
the supplied bytes is written false. -/
theorem c9_write_multiple_coils_padding (disabled : List Nat) (s : ModbusDataStore)
    (req : Request)
    (hen : isUnitIdEnabled disabled req.UnitID = true)
    (hrange : req.Address + req.Quantity ≤ s.coils.length)
    (hshort : 8 * req.Data.length < req.Quantity) :
    (processWriteMultipleCoils disabled s req).2
      = BuildWriteMultipleResponse req.UnitID req.FunctionCode req.Address req.Quantity ∧
    (processWriteMultipleCoils disabled s req).1.coils
      = copyInto s.coils req.Address (unpackBools req.Data req.Quantity) ∧
    (unpackBools req.Data req.Quantity).length = req.Quantity ∧
    (∀ i, i < req.Quantity → 8 * req.Data.length ≤ i →
      ((processWriteMultipleCoils disabled s req).1.coils).getD (req.Address + i) true
        = false) := by
  have hlen : (unpackBools req.Data req.Quantity).length = req.Quantity :=
    unpackBools_length _ _
  have hnl : ¬(s.coils.length < req.Address + (unpackBools req.Data req.Quantity).length) := by
    rw [hlen]
    omega
  have hwb : s.WriteBits AreaCoils req.Address (unpackBools req.Data req.Quantity)
      = ({ s with coils := copyInto s.coils req.Address (unpackBools req.Data req.Quantity) },
         none) := by
    simp [ModbusDataStore.WriteBits, hnl]
  have hh : HandleWriteMultipleCoils disabled s req.UnitID req.Address
      (unpackBools req.Data req.Quantity)
      = ({ s with coils := copyInto s.coils req.Address (unpackBools req.Data req.Quantity) },
         none) := by
    simp [HandleWriteMultipleCoils, hen, hwb]
  have hmain : processWriteMultipleCoils disabled s req
      = ({ s with coils := copyInto s.coils req.Address (unpackBools req.Data req.Quantity) },
         BuildWriteMultipleResponse req.UnitID req.FunctionCode req.Address req.Quantity) := by
    simp [processWriteMultipleCoils, hh]
  refine ⟨by rw [hmain], by rw [hmain], hlen, ?_⟩
  intro i hiq hbeyond
  rw [hmain]
  show (copyInto s.coils req.Address (unpackBools req.Data req.Quantity)).getD
    (req.Address + i) true = false
  rw [copyInto_getD _ _ _ _ _ (by rw [hlen]; omega) (by rw [hlen]; omega)]
  rw [unpackBools_getD _ _ _ hiq]
  rw [if_neg (by omega)]

/-- C9 witness: Quantity = 10 with one data byte 0xFF; coils 8 and 9 are
written false and the request is answered normally. -/
theorem c9_write_multiple_coils_padding_witness :
    ((processWriteMultipleCoils [] (ModbusDataStore.mk (List.replicate 10 false) [] [] [])
        ⟨1, 15, 0, 10, [0xFF]⟩).1.coils).getD 8 true = false ∧
    ((processWriteMultipleCoils [] (ModbusDataStore.mk (List.replicate 10 false) [] [] [])
        ⟨1, 15, 0, 10, [0xFF]⟩).1.coils).getD 9 true = false ∧
    (processWriteMultipleCoils [] (ModbusDataStore.mk (List.replicate 10 false) [] [] [])
        ⟨1, 15, 0, 10, [0xFF]⟩).2 = BuildWriteMultipleResponse 1 15 0 10 := by
  have h := c9_write_multiple_coils_padding []
    (ModbusDataStore.mk (List.replicate 10 false) [] [] []) ⟨1, 15, 0, 10, [0xFF]⟩
    (by decide) (by decide) (by decide)
  exact ⟨by simpa using h.2.2.2 8 (by decide) (by decide),
         by simpa using h.2.2.2 9 (by decide) (by decide), h.1⟩

/-! ## C10: Restore is total and copies at most the smaller length -/

theorem lookup_updateArea_self (s : List (String × List Nat)) (a : String) (d : List Nat) :
    List.lookup a (updateArea s a d) = (List.lookup a s).map (fun _ => d) := by
  induction s with
  | nil => rfl
  | cons p t ih =>
    obtain ⟨k, v⟩ := p
    by_cases hk : k = a
    · subst hk
      simp [updateArea, List.lookup_cons]
    · have hbf : (a == k) = false := beq_eq_false_iff_ne.mpr (fun h => hk h.symm)
      simp only [updateArea, List.map_cons, if_neg hk, List.lookup_cons, hbf]
      exact ih

theorem lookup_updateArea_ne (s : List (String × List Nat)) (a b : String) (hba : b ≠ a)
    (d : List Nat) : List.lookup b (updateArea s a d) = List.lookup b s := by
  induction s with
  | nil => rfl
  | cons p t ih =>
    obtain ⟨k, v⟩ := p
    by_cases hk : k = a
    · subst hk
      have hbf : (b == k) = false := beq_eq_false_iff_ne.mpr hba
      rw [show updateArea ((k, v) :: t) k d = (k, d) :: updateArea t k d from
        by simp [updateArea]]
      rw [List.lookup_cons]
      simp only [hbf, List.lookup_cons]
      exact ih
    · by_cases hbk : b = k
      · subst hbk
        simp only [updateArea, List.map_cons, if_neg hk, List.lookup_cons, beq_self_eq_true]
      · have hbf : (b == k) = false := beq_eq_false_iff_ne.mpr hbk
        simp only [updateArea, List.map_cons, if_neg hk, List.lookup_cons, hbf]
        exact ih

theorem lookup_finsRestoreStep_ne (s : FINSDataStore) (k : String) (v : RVal) (a : String)
    (h : k ≠ a) : List.lookup a (finsRestoreStep s (k, v)).areas = List.lookup a s.areas := by
  cases v with
  | words w =>
    simp only [finsRestoreStep]
    cases hlu : List.lookup k s.areas with
    | none => rfl
    | some ex => exact lookup_updateArea_ne s.areas k a (fun hc => h hc.symm) _
  | bools bs => rfl
  | other => rfl

theorem restore_foldl_not_mem (input : List (String × RVal)) :
    ∀ (s : FINSDataStore) (a : String), a ∉ input.map Prod.fst →
    List.lookup a (input.foldl finsRestoreStep s).areas = List.lookup a s.areas := by
  induction input with
  | nil => intro s a _; rfl
  | cons e t ih =>
    intro s a ha
    simp only [List.map_cons, List.mem_cons, not_or] at ha
    obtain ⟨ha1, ha2⟩ := ha
    rw [List.foldl_cons, ih (finsRestoreStep s e) a ha2]
    obtain ⟨k, v⟩ := e
    exact lookup_finsRestoreStep_ne s k v a (fun hc => ha1 hc.symm)

theorem restore_foldl_none (input : List (String × RVal)) :
    ∀ (s : FINSDataStore) (a : String), List.lookup a s.areas = none →
    List.lookup a (input.foldl finsRestoreStep s).areas = none := by
  induction input with
  | nil => intro s a h; exact h
  | cons e t ih =>
    intro s a h
    rw [List.foldl_cons]
    apply ih
    obtain ⟨k, v⟩ := e
    by_cases hk : k = a
    · subst hk
      cases v with
      | words w =>
        simp only [finsRestoreStep]
        rw [h]
        exact h
      | bools bs => exact h
      | other => exact h
    · rw [lookup_finsRestoreStep_ne s k v a hk]
      exact h

theorem restore_foldl_words (input : List (String × RVal)) :
    ∀ (s : FINSDataStore) (a : String) (w e : List Nat),
    (input.map Prod.fst).Nodup →
    input.lookup a = some (.words w) → List.lookup a s.areas = some e →
    List.lookup a (input.foldl finsRestoreStep s).areas = some (restoreCopy e w) := by
  induction input with
  | nil =>
    intro s a w e _ hl _
    exact absurd hl (by simp)
  | cons p t ih =>
    intro s a w e hnd hl hs
    obtain ⟨k, v⟩ := p
    simp only [List.map_cons, List.nodup_cons] at hnd
    obtain ⟨hk_notin, hnd_t⟩ := hnd
    rw [List.foldl_cons]
    by_cases hk : k = a
    · subst hk
      have hv : v = .words w := by
        simpa [List.lookup_cons] using hl
      subst hv
      have hstep : finsRestoreStep s (k, RVal.words w) =
          ⟨updateArea s.areas k (restoreCopy e w)⟩ := by
        simp only [finsRestoreStep]
        rw [hs]
      rw [hstep, restore_foldl_not_mem t _ k hk_notin]
      show List.lookup k (updateArea s.areas k (restoreCopy e w)) = _
      rw [lookup_updateArea_self, hs]
      rfl
    · have hbf : (a == k) = false := beq_eq_false_iff_ne.mpr (fun hc => hk hc.symm)
      have hl_t : t.lookup a = some (.words w) := by
        simpa [List.lookup_cons, hbf] using hl
      have hs2 : List.lookup a (finsRestoreStep s (k, v)).areas = some e := by
        rw [lookup_finsRestoreStep_ne s k v a hk]
        exact hs
      exact ih (finsRestoreStep s (k, v)) a w e hnd_t hl_t hs2

theorem restore_foldl_not_words (input : List (String × RVal)) :
    ∀ (s : FINSDataStore) (a : String),
    (input.map Prod.fst).Nodup →
    (∀ w, input.lookup a ≠ some (.words w)) →
    List.lookup a (input.foldl finsRestoreStep s).areas = List.lookup a s.areas := by
  induction input with
  | nil => intro s a _ _; rfl
  | cons p t ih =>
    intro s a hnd hnw
    obtain ⟨k, v⟩ := p
    simp only [List.map_cons, List.nodup_cons] at hnd
    obtain ⟨hk_notin, hnd_t⟩ := hnd
    rw [List.foldl_cons]
    by_cases hk : k = a
    · subst hk
      have hstep : finsRestoreStep s (k, v) = s := by
        cases v with
        | words w =>
          exfalso
          apply hnw w
          simp [List.lookup_cons]
        | bools bs => rfl
        | other => rfl
      rw [hstep]
      exact restore_foldl_not_mem t s k hk_notin
    · have hbf : (a == k) = false := beq_eq_false_iff_ne.mpr (fun hc => hk hc.symm)
      have hnw_t : ∀ w, t.lookup a ≠ some (.words w) := by
        intro w hw
        apply hnw w
        simp [List.lookup_cons, hbf, hw]
      rw [ih (finsRestoreStep s (k, v)) a hnd_t hnw_t,
        lookup_finsRestoreStep_ne s k v a hk]

theorem mRestoreCoils_holding (s : ModbusDataStore) (d : List (String × RVal)) :
    (mRestoreCoils s d).holdingRegs = s.holdingRegs := by
  unfold mRestoreCoils
  split <;> rfl

theorem mRestoreDiscrete_coils (s : ModbusDataStore) (d : List (String × RVal)) :
    (mRestoreDiscrete s d).coils = s.coils := by
  unfold mRestoreDiscrete
  split <;> rfl

theorem mRestoreDiscrete_holding (s : ModbusDataStore) (d : List (String × RVal)) :
    (mRestoreDiscrete s d).holdingRegs = s.holdingRegs := by
  unfold mRestoreDiscrete
  split <;> rfl

theorem mRestoreHolding_coils (s : ModbusDataStore) (d : List (String × RVal)) :
    (mRestoreHolding s d).coils = s.coils := by
  unfold mRestoreHolding
  split <;> rfl

theorem mRestoreInput_coils (s : ModbusDataStore) (d : List (String × RVal)) :
    (mRestoreInput s d).coils = s.coils := by
  unfold mRestoreInput
  split <;> rfl

theorem mRestoreInput_holding (s : ModbusDataStore) (d : List (String × RVal)) :
    (mRestoreInput s d).holdingRegs = s.holdingRegs := by
  unfold mRestoreInput
  split <;> rfl

/-- C10: Restore never returns an error on either datastore; unknown area
ids and wrongly-typed values are silently ignored; a matching entry is
copied element-wise up to the smaller of the given and existing lengths. -/
theorem c10_restore_total_min_copy :
    (∀ (s : FINSDataStore) (input : List (String × RVal)), (s.Restore input).2 = none) ∧
    (∀ (s : ModbusDataStore) (input : List (String × RVal)), (s.Restore input).2 = none) ∧
    (∀ (s : FINSDataStore) (input : List (String × RVal)) (a : String) (w e : List Nat),
       (input.map Prod.fst).Nodup → input.lookup a = some (.words w) →
       List.lookup a s.areas = some e →
       List.lookup a ((s.Restore input).1).areas = some (restoreCopy e w)) ∧
    (∀ (s : FINSDataStore) (input : List (String × RVal)) (a : String),
       (input.map Prod.fst).Nodup → (∀ w, input.lookup a ≠ some (.words w)) →
       List.lookup a ((s.Restore input).1).areas = List.lookup a s.areas) ∧
    (∀ (s : FINSDataStore) (input : List (String × RVal)) (a : String),
       List.lookup a s.areas = none →
       List.lookup a ((s.Restore input).1).areas = none) ∧
    (∀ (s : ModbusDataStore) (input : List (String × RVal)) (bs : List Bool),
       input.lookup AreaCoils = some (.bools bs) →
       (ModbusDataStore.Restore s input).1.coils = restoreCopy s.coils bs) ∧
    (∀ (s : ModbusDataStore) (input : List (String × RVal)),
       (∀ bs, input.lookup AreaCoils ≠ some (.bools bs)) →
       (ModbusDataStore.Restore s input).1.coils = s.coils) ∧
    (∀ (s : ModbusDataStore) (input : List (String × RVal)) (ws : List Nat),
       input.lookup AreaHoldingRegs = some (.words ws) →
       (ModbusDataStore.Restore s input).1.holdingRegs = restoreCopy s.holdingRegs ws) ∧
    (∀ (s : ModbusDataStore) (input : List (String × RVal)),
       (∀ ws, input.lookup AreaHoldingRegs ≠ some (.words ws)) →
       (ModbusDataStore.Restore s input).1.holdingRegs = s.holdingRegs) := by
  refine ⟨fun s input => rfl, fun s input => rfl, ?_, ?_, ?_, ?_, ?_, ?_, ?_⟩
  · intro s input a w e hnd hl hs
    exact restore_foldl_words input s a w e hnd hl hs
  · intro s input a hnd hnw
    exact restore_foldl_not_words input s a hnd hnw
  · intro s input a hs
    exact restore_foldl_none input s a hs
  · intro s input bs h
    show (mRestoreInput (mRestoreHolding (mRestoreDiscrete (mRestoreCoils s input) input)
      input) input).coils = _
    rw [mRestoreInput_coils, mRestoreHolding_coils, mRestoreDiscrete_coils]
    unfold mRestoreCoils
    rw [h]
  · intro s input hn
    show (mRestoreInput (mRestoreHolding (mRestoreDiscrete (mRestoreCoils s input) input)
      input) input).coils = _
    rw [mRestoreInput_coils, mRestoreHolding_coils, mRestoreDiscrete_coils]
    unfold mRestoreCoils
    cases hc : input.lookup AreaCoils with
    | none => rfl
    | some v =>
      cases v with
      | words w => rfl
      | bools bs => exact absurd hc (hn bs)
      | other => rfl
  · intro s input ws h
    show (mRestoreInput (mRestoreHolding (mRestoreDiscrete (mRestoreCoils s input) input)
      input) input).holdingRegs = _
    rw [mRestoreInput_holding]
    unfold mRestoreHolding
    rw [h]
    show restoreCopy (mRestoreDiscrete (mRestoreCoils s input) input).holdingRegs ws = _
    rw [mRestoreDiscrete_holding, mRestoreCoils_holding]
  · intro s input hn
    show (mRestoreInput (mRestoreHolding (mRestoreDiscrete (mRestoreCoils s input) input)
      input) input).holdingRegs = _
    rw [mRestoreInput_holding]
    unfold mRestoreHolding
    cases hc : input.lookup AreaHoldingRegs with
    | none => rw [mRestoreDiscrete_holding, mRestoreCoils_holding]
    | some v =>
      cases v with
      | words w => exact absurd hc (hn w)
      | bools bs => rw [mRestoreDiscrete_holding, mRestoreCoils_holding]
      | other => rw [mRestoreDiscrete_holding, mRestoreCoils_holding]

/-- C10 witness: concrete restores on both datastores, with an unknown key
and a wrongly-typed entry ignored and a long array truncated. -/
theorem c10_restore_total_min_copy_witness :
    ((FINSDataStore.mk [("DM", [1, 2, 3])]).Restore
        [("DM", .words [9]), ("nope", .words [7]), ("CIO", .other)]).2 = none ∧
    List.lookup "DM" (((FINSDataStore.mk [("DM", [1, 2, 3])]).Restore
        [("DM", .words [9]), ("nope", .words [7]), ("CIO", .other)]).1).areas
      = some [9, 2, 3] ∧
    List.lookup "nope" (((FINSDataStore.mk [("DM", [1, 2, 3])]).Restore
        [("DM", .words [9]), ("nope", .words [7]), ("CIO", .other)]).1).areas = none ∧
    ((ModbusDataStore.mk [true] [] [5] []).Restore
        [(AreaCoils, .bools [false]), (AreaHoldingRegs, .words [7, 8])]).1.coils
      = [false] ∧
    ((ModbusDataStore.mk [true] [] [5] []).Restore
        [(AreaCoils, .bools [false]), (AreaHoldingRegs, .words [7, 8])]).1.holdingRegs
      = [7] := by
  refine ⟨c10_restore_total_min_copy.1 _ _, ?_, ?_, ?_, ?_⟩
  · have h := c10_restore_total_min_copy.2.2.1 (FINSDataStore.mk [("DM", [1, 2, 3])])
      [("DM", .words [9]), ("nope", .words [7]), ("CIO", .other)] "DM" [9] [1, 2, 3]
      (by decide) (by decide) (by decide)
    simpa using h
  · exact c10_restore_total_min_copy.2.2.2.2.1 (FINSDataStore.mk [("DM", [1, 2, 3])])
      [("DM", .words [9]), ("nope", .words [7]), ("CIO", .other)] "nope" (by decide)
  · have h := c10_restore_total_min_copy.2.2.2.2.2.1 (ModbusDataStore.mk [true] [] [5] [])
      [(AreaCoils, .bools [false]), (AreaHoldingRegs, .words [7, 8])] [false] (by decide)
    simpa using h
  · have h := c10_restore_total_min_copy.2.2.2.2.2.2.2.1 (ModbusDataStore.mk [true] [] [5] [])
      [(AreaCoils, .bools [false]), (AreaHoldingRegs, .words [7, 8])] [7, 8] (by decide)
    simpa using h
